import Mathlib

/-!
Shallow embedding of the Useful-Scripts-for-VAPT repository.

Python strings are embedded as `List Char` (`Str`), and the relevant
functions of the repository are translated definition by definition:

* `mask_ip_address` from
  `Useful Scripts/IP-and-Subnet-Masking-Tool/IP-and-Subnet-Masking-Tool.py`;
* the vulnerability-verifier pipeline from `vuln_verifier/`:
  `categorize_vulnerability` and the row loop of `parse_nessus_csv`
  (`core/csv_parser.py`), `create_poc_folder` (`core/file_manager.py`,
  where a second definition shadows the first at module load),
  `BaseScanner._run_command` (`scanners/base_scanner.py`),
  `ApacheVulnScanner.verify` (`scanners/apache_vuln_scanner.py`),
  and the scanner dispatch and verification loop of `starter.py` (`main`).

External effects (subprocess outcomes, file contents read back) are
supplied through an explicit `World` value, and file writes are returned
as explicit (path, content) lists.
-/

namespace VAPT

/-- Python strings, embedded as lists of characters. -/
abbrev Str := List Char

/-- Python `s.lower()` (ASCII behaviour, which is all the repository uses). -/
def strLower (s : Str) : Str := s.map Char.toLower

/-- `needle` is a prefix of `hay` (helper for Python's substring test). -/
def strStarts : Str → Str → Bool
  | [], _ => true
  | _ :: _, [] => false
  | a :: as, b :: bs => (a == b) && strStarts as bs

/-- Python's `needle in hay` substring containment on strings. -/
def isSub (needle : Str) : Str → Bool
  | [] => strStarts needle []
  | hay@(_ :: t) => strStarts needle hay || isSub needle t

/-- Python `s.split(sep)` for a single-character separator:
always returns a non-empty list of chunks. -/
def splitCh (sep : Char) : Str → List Str
  | [] => [[]]
  | c :: cs =>
    match splitCh sep cs with
    | [] => [[]]
    | h :: t => if c = sep then [] :: h :: t else (c :: h) :: t

/-- Python `s.split(sep, 1)` restricted to the information the scripts use:
`some (before, after)` around the first occurrence of `sep`, `none` when
`sep` does not occur (in which case Python's `sep in s` test is false). -/
def splitFirst (sep : Char) : Str → Option (Str × Str)
  | [] => none
  | c :: cs =>
    if c = sep then some ([], cs)
    else
      match splitFirst sep cs with
      | none => none
      | some (a, b) => some (c :: a, b)

/-- `mask_ip_address` from `IP-and-Subnet-Masking-Tool.py`: if the string
contains a slash, split once at the first slash; a four-octet part before
the slash is masked to `o0.xx.xx.o3/<cidr>`; otherwise a plain four-octet
string is masked to `o0.xx.xx.o3`; anything else is returned unchanged. -/
def mask_ip_address (s : Str) : Str :=
  match splitFirst '/' s with
  | some (ip_part, cidr_part) =>
    match splitCh '.' ip_part with
    | [o0, _, _, o3] => o0 ++ (".xx.xx.".toList) ++ o3 ++ '/' :: cidr_part
    | _ => s
  | none =>
    match splitCh '.' s with
    | [o0, _, _, o3] => o0 ++ (".xx.xx.".toList) ++ o3
    | _ => s


/-! ### Vulnerability verifier: data model (`core/csv_parser.py`, `config/settings.py`) -/

/-- A parsed vulnerability record, as built by `parse_nessus_csv`
(`core/csv_parser.py`): the seven mapped CSV fields plus the category
assigned by `categorize_vulnerability`. -/
structure Vuln where
  ip : Str
  port : Str
  service : Str
  vulnerability : Str
  plugin_id : Str
  description : Str
  solution : Str
  category : Str
  deriving DecidableEq, Repr

/-- One category's entry in `vuln_mappings.json`: a keyword list and an
optional map from vulnerability titles to plugin-id lists (the code guards
the second scan with `if "vulnerabilities" in data`). -/
structure CategoryData where
  keywords : List Str
  vulnerabilities : Option (List (Str × List Str))
  deriving DecidableEq, Repr

/-- The category-rule configuration: an insertion-ordered mapping from
category name to `CategoryData`, as iterated by `categorize_vulnerability`. -/
structure Mappings where
  categories : List (Str × CategoryData)
  deriving DecidableEq, Repr

/-- `OUTPUT_DIR` from `config/settings.py` (`BASE_DIR/output`); the
run-dependent `BASE_DIR` prefix is dropped. -/
def OUTPUT_DIR : Str := ("output").toList

/-- Fields of a record before categorization, keyed the way
`categorize_vulnerability` reads them. -/
structure PreVuln where
  ip : Str
  port : Str
  service : Str
  vulnerability : Str
  plugin_id : Str
  description : Str
  solution : Str
  deriving DecidableEq, Repr

/-- First loop of `categorize_vulnerability`: scan the categories in
order, skip `General`, and return the first category one of whose
keywords occurs in the lowercased service or vulnerability name. -/
def categoryKeywordScan (service vuln_name : Str) :
    List (Str × CategoryData) → Option Str
  | [] => none
  | (category, data) :: rest =>
    if category = ("General").toList then
      categoryKeywordScan service vuln_name rest
    else if data.keywords.any (fun keyword =>
        isSub keyword service || isSub keyword vuln_name) then
      some category
    else
      categoryKeywordScan service vuln_name rest

/-- Second loop of `categorize_vulnerability`: scan the categories in
order, skip `General`, and return the first category with a
`vulnerabilities` table containing a title whose lowercase form occurs in
the vulnerability name, or a plugin id occurring in the record's
plugin-id field. -/
def categoryVulnScan (vuln_name plugin_id : Str) :
    List (Str × CategoryData) → Option Str
  | [] => none
  | (category, data) :: rest =>
    if category = ("General").toList then
      categoryVulnScan vuln_name plugin_id rest
    else
      match data.vulnerabilities with
      | some vulnTable =>
        if vulnTable.any (fun mapped =>
            isSub (strLower mapped.1) vuln_name ||
            mapped.2.any (fun pid => isSub pid plugin_id)) then
          some category
        else
          categoryVulnScan vuln_name plugin_id rest
      | none => categoryVulnScan vuln_name plugin_id rest

/-- `categorize_vulnerability` from `core/csv_parser.py`: keyword scan,
then vulnerability-table scan, then the `General` default.  (Python's
`x.lower() if x else ""` equals `strLower x` because lowering the empty
string is the empty string.) -/
def categorize_vulnerability (vuln : PreVuln) (mappings : Mappings) : Str :=
  let service := if vuln.service ≠ [] then strLower vuln.service else []
  let vuln_name := if vuln.vulnerability ≠ [] then strLower vuln.vulnerability else []
  let plugin_id := vuln.plugin_id
  match categoryKeywordScan service vuln_name mappings.categories with
  | some category => category
  | none =>
    match categoryVulnScan vuln_name plugin_id mappings.categories with
    | some category => category
    | none => ("General").toList

/-! ### Vulnerability verifier: CSV row parsing (`parse_nessus_csv`) -/

/-- A CSV row as produced by `csv.DictReader`: an ordered association
list from column name to value. -/
abbrev Row := List (Str × Str)

/-- Python `row.get(key, "")`. -/
def rowGet (row : Row) (key : Str) : Str :=
  match row.find? (fun p => p.1 = key) with
  | some p => p.2
  | none => []

/-- One of the three field mappings returned by `get_field_mapping`:
record field → CSV column name. -/
structure FieldMapping where
  ip : Str
  port : Str
  service : Str
  vulnerability : Str
  plugin_id : Str
  description : Str
  solution : Str
  deriving DecidableEq, Repr

/-- The completeness test of the row loop in `parse_nessus_csv`:
`all(row.get(field_mapping[key], "") for key in ["ip", "port", "vulnerability"])`
(a string is truthy iff non-empty). -/
def rowComplete (fm : FieldMapping) (row : Row) : Bool :=
  rowGet row fm.ip ≠ [] && rowGet row fm.port ≠ [] &&
    rowGet row fm.vulnerability ≠ []

/-- Building one record from a complete row, including the category
assignment, as in the body of the row loop of `parse_nessus_csv`. -/
def mkVuln (fm : FieldMapping) (mappings : Mappings) (row : Row) : Vuln :=
  let pre : PreVuln :=
    { ip := rowGet row fm.ip
      port := rowGet row fm.port
      service := rowGet row fm.service
      vulnerability := rowGet row fm.vulnerability
      plugin_id := rowGet row fm.plugin_id
      description := rowGet row fm.description
      solution := rowGet row fm.solution }
  { ip := pre.ip, port := pre.port, service := pre.service
    vulnerability := pre.vulnerability, plugin_id := pre.plugin_id
    description := pre.description, solution := pre.solution
    category := categorize_vulnerability pre mappings }

/-- The row loop of `parse_nessus_csv` (`core/csv_parser.py`): skip
incomplete rows, turn every other row into exactly one record, in order. -/
def parse_nessus_csv_rows (fm : FieldMapping) (mappings : Mappings) :
    List Row → List Vuln
  | [] => []
  | row :: rest =>
    if rowComplete fm row then
      mkVuln fm mappings row :: parse_nessus_csv_rows fm mappings rest
    else
      parse_nessus_csv_rows fm mappings rest

/-! ### Vulnerability verifier: file manager and scanners -/

/-- Python `s.replace(" ", "_")` (used on vulnerability names to build
folder names). -/
def replaceSpace (s : Str) : Str :=
  s.map (fun c => if c = ' ' then '_' else c)

/-- `os.path.join a b` on POSIX for relative second components. -/
def pathJoin (a b : Str) : Str := a ++ '/' :: b

/-- The `ScannerError` raised by `BaseScanner._run_command`
(`utils/exceptions.py` is imported but not under `src/`; it is a plain
exception class carrying a message). -/
inductive ScanErr where
  | scannerError (msg : Str)
  deriving DecidableEq, Repr

/-- Outcome of one external command invocation, supplied by the
environment: a normal exit, a non-zero exit (`CalledProcessError`), or a
timeout (`TimeoutExpired`). -/
inductive CmdOutcome where
  | success
  | calledProcessError (output : Str)
  | timeoutExpired
  deriving DecidableEq, Repr

/-- The environment visible to one `ApacheVulnScanner.verify` call: the
outcome of its single external command and the content of the
`<nmap_output>.xml` file it reads back on success. -/
structure World where
  cmdOutcome : CmdOutcome
  xmlContent : Str
  deriving DecidableEq, Repr

/-- `BaseScanner._run_command` (`scanners/base_scanner.py`), with the
subprocess outcome supplied by the `World`: returns `true` on success and
raises `ScannerError` on a non-zero exit, a timeout, or any other
failure — it never returns normally in those cases. -/
def _run_command (w : World) (cmd : Str) : Except ScanErr Bool :=
  match w.cmdOutcome with
  | CmdOutcome.success => Except.ok true
  | CmdOutcome.calledProcessError output =>
    Except.error (ScanErr.scannerError
      ((("Command failed: ").toList) ++ cmd ++ ((" - ").toList) ++ output))
  | CmdOutcome.timeoutExpired =>
    Except.error (ScanErr.scannerError
      ((("Command timed out: ").toList) ++ cmd))

/-- The effective `create_poc_folder` of `core/file_manager.py`: the file
defines `create_poc_folder` twice, and at module load the second (older)
definition rebinds the name, so this is the one every scanner calls.  It
builds `OUTPUT_DIR/<status>/<category.lower()>/<name>_<ip>_<port>`,
creates the directories, and writes no file at all; the returned pair is
(folder path, files written inside it). -/
def create_poc_folder (status : Str) (category : Str) (vuln : Vuln) :
    Str × List (Str × Str) :=
  let folder_name :=
    replaceSpace vuln.vulnerability ++ '_' :: vuln.ip ++ '_' :: vuln.port
  let path :=
    pathJoin (pathJoin (pathJoin OUTPUT_DIR status) (strLower category)) folder_name
  (path, [])

/-- The first, shadowed `create_poc_folder` definition (the one whose
docstring promises a `vulnerability_info.json` metadata file).  It is
never the module-level binding — the second definition replaces it before
any caller can see it — and it would also fail at runtime because
`file_manager.py` defines neither `sanitize_filename` nor `json`.  Its
happy path is modelled here only to document what the metadata write
would have been; `jsonOfVuln` stands for `json.dump` of the record. -/
def create_poc_folder_shadowed (jsonOfVuln : Vuln → Str)
    (status : Str) (category : Str) (vuln : Vuln) :
    Str × List (Str × Str) :=
  let folder_name :=
    replaceSpace vuln.vulnerability ++ '_' :: vuln.ip ++ '_' :: vuln.port
  let path :=
    pathJoin (pathJoin (pathJoin OUTPUT_DIR status) (strLower category)) folder_name
  (path, [(pathJoin path (("vulnerability_info.json").toList), jsonOfVuln vuln)])

/-- Verification status strings returned by the scanners. -/
inductive Status where
  | verified
  | falsePositive
  | manualCheckRequired
  deriving DecidableEq, Repr

/-- The status strings as the Python code spells them. -/
def statusStr : Status → Str
  | Status.verified => ("Verified").toList
  | Status.falsePositive => ("False Positive").toList
  | Status.manualCheckRequired => ("Manual Check Required").toList

/-- Result of one `verify` call: the returned (status, poc path) pair
plus the files the call wrote. -/
structure VerifyResult where
  status : Status
  pocPath : Str
  writes : List (Str × Str)
  deriving DecidableEq, Repr

/-- `ApacheVulnScanner.verify` (`scanners/apache_vuln_scanner.py`):
chooses a folder-status string from the plugin id, creates the PoC
folder, builds one nmap command, runs it, and on success decides
Verified/False Positive by substring search over the lowercased XML
output; a `ScannerError` from the command is caught and turned into a
Manual Check Required result with a `manual_steps.txt` note. -/
def apacheVerify (w : World) (vuln : Vuln) : Except ScanErr VerifyResult :=
  let ip := vuln.ip
  let port := vuln.port
  let vuln_name := strLower vuln.vulnerability
  let plugin_id := vuln.plugin_id
  let status :=
    if plugin_id = ("11219").toList ∨ plugin_id = ("73346").toList then
      ("Verified").toList
    else
      ("False Positive").toList
  let output_dir := (create_poc_folder status (("apache").toList) vuln).1
  let nmap_output := pathJoin output_dir (("nmap_scan").toList)
  let script :=
    if isSub (("default").toList) vuln_name then
      ("http-default-pages").toList
    else
      ("http-vuln-apache").toList
  let cmd := (("nmap -p ").toList) ++ port ++ ((" --script ").toList) ++ script ++
    (" ").toList ++ ip ++ ((" -oA ").toList) ++ nmap_output
  match _run_command w cmd with
  | Except.error _ =>
    Except.ok
      { status := Status.manualCheckRequired
        pocPath := output_dir
        writes := [(pathJoin output_dir (("manual_steps.txt").toList),
          (("Manual Check Required: Run ").toList) ++ cmd ++
            ((" and check for ").toList) ++ vuln_name ++ (".").toList)] }
  | Except.ok _ =>
    let output := strLower w.xmlContent
    if isSub vuln_name output || isSub (("vulnerable").toList) output then
      Except.ok { status := Status.verified, pocPath := output_dir, writes := [] }
    else
      Except.ok { status := Status.falsePositive, pocPath := output_dir, writes := [] }

/-! ### Vulnerability verifier: dispatch and main loop (`starter.py`) -/

/-- The scanner classes instantiated by `main` in `starter.py`, one per
key of its `scanners` dictionary. -/
inductive ScannerId where
  | apache | db | dns | ftp | ike | nginx | rdp | smb
  | smtp | smtp2 | ssh | ssl | telnet | tomcat | general | web
  deriving DecidableEq, Repr

/-- The `scanners` dictionary literal of `main` (`starter.py`), in
insertion order. -/
def scanners : List (Str × ScannerId) :=
  [(("Apache").toList, ScannerId.apache),
   (("DB").toList, ScannerId.db),
   (("DNS").toList, ScannerId.dns),
   (("FTP").toList, ScannerId.ftp),
   (("IKE").toList, ScannerId.ike),
   (("Nginx").toList, ScannerId.nginx),
   (("RDP").toList, ScannerId.rdp),
   (("SMB").toList, ScannerId.smb),
   (("SMTP").toList, ScannerId.smtp),
   (("SMTP2").toList, ScannerId.smtp2),
   (("SSH").toList, ScannerId.ssh),
   (("SSL").toList, ScannerId.ssl),
   (("Telnet").toList, ScannerId.telnet),
   (("Tomcat").toList, ScannerId.tomcat),
   (("General").toList, ScannerId.general),
   (("Web").toList, ScannerId.web)]

/-- `scanners.get(category, scanners["General"])` from the verification
loop of `main`. -/
def selectScanner (category : Str) : ScannerId :=
  match scanners.find? (fun p => p.1 = category) with
  | some p => p.2
  | none => ScannerId.general

/-- The fallback result appended by the `except` arm of the verification
loop: `("Manual Check Required", f"{OUTPUT_DIR}/manual/{name}_{ip}_{port}")`. -/
def manualFallbackPath (vuln : Vuln) : Str :=
  OUTPUT_DIR ++ (("/manual/").toList) ++ replaceSpace vuln.vulnerability ++
    '_' :: vuln.ip ++ '_' :: vuln.port

/-- The verification loop of `main` (`starter.py`): for each record in
order, dispatch on its category, call the scanner's `verify`, and append
its (status, poc path); any exception is caught and recorded as a
Manual Check Required result for that record, after which the loop
continues.  The behaviour of each scanner is passed in as `impl`. -/
def verifyAll (impl : ScannerId → Vuln → Except ScanErr (Status × Str)) :
    List Vuln → List (Status × Str)
  | [] => []
  | vuln :: rest =>
    (match impl (selectScanner vuln.category) vuln with
     | Except.ok result => result
     | Except.error _ => (Status.manualCheckRequired, manualFallbackPath vuln)) ::
      verifyAll impl rest


/-- Spec-side restatement of the keyword test of the first scan: a
non-General category one of whose keywords occurs in the lowercased
service or vulnerability-name field. -/
def keywordHit (vuln : PreVuln) (p : Str × CategoryData) : Bool :=
  !(p.1 == ("General").toList) && p.2.keywords.any (fun keyword =>
    isSub keyword (strLower vuln.service) ||
    isSub keyword (strLower vuln.vulnerability))

/-- Spec-side restatement of the identifier test of the second scan: a
non-General category whose vulnerability table has a title occurring in
the lowercased vulnerability name or a plugin id occurring in the
record's identifier. -/
def vulnTableHit (vuln : PreVuln) (p : Str × CategoryData) : Bool :=
  !(p.1 == ("General").toList) &&
    (match p.2.vulnerabilities with
     | some vulnTable => vulnTable.any (fun mapped =>
         isSub (strLower mapped.1) (strLower vuln.vulnerability) ||
         mapped.2.any (fun pid => isSub pid vuln.plugin_id))
     | none => false)


/-! ### Concrete example data -/

/-- Modelled from the spec: the repository loads its category rules from
`config/vuln_mappings.json`, which is not under `src/`; the spec states
that categories carry keyword lists and known-identifier lists, and gives
the example that a row named "Apache Default Welcome Page" with plugin id
"11219" belongs to the Apache category.  This mapping realises that
example: an `Apache` category with keyword `apache` and a vulnerability
table binding that title to plugin id `11219`. -/
def specMappings : Mappings :=
  { categories :=
      [(("Apache").toList,
        { keywords := [("apache").toList]
          vulnerabilities :=
            some [(("Apache Default Welcome Page").toList, [("11219").toList])] })] }

/-- The example record of the spec, before categorization. -/
def apacheExamplePre : PreVuln :=
  { ip := ("10.0.0.5").toList
    port := ("80").toList
    service := ("www").toList
    vulnerability := ("Apache Default Welcome Page").toList
    plugin_id := ("11219").toList
    description := []
    solution := [] }

/-- The example record of the spec, carrying the Apache category. -/
def apacheExampleVuln : Vuln :=
  { ip := ("10.0.0.5").toList
    port := ("80").toList
    service := ("www").toList
    vulnerability := ("Apache Default Welcome Page").toList
    plugin_id := ("11219").toList
    description := []
    solution := []
    category := ("Apache").toList }


/-! ### Lemmas about the split helpers -/

theorem splitCh_ne_nil (sep : Char) (s : Str) : splitCh sep s ≠ [] := by
  cases s with
  | nil => simp [splitCh]
  | cons c cs =>
    simp only [splitCh]
    cases h : splitCh sep cs with
    | nil => simp
    | cons h t =>
      by_cases hc : c = sep <;> simp [hc]

theorem splitCh_of_not_mem {sep : Char} {s : Str} (h : sep ∉ s) :
    splitCh sep s = [s] := by
  induction s with
  | nil => rfl
  | cons c cs ih =>
    have hcs : sep ∉ cs := fun hm => h (List.mem_cons_of_mem _ hm)
    have hc : c ≠ sep := fun he => h (he ▸ List.mem_cons_self c cs)
    simp [splitCh, ih hcs, hc]

theorem splitCh_append_sep {sep : Char} {a : Str} (b : Str) (h : sep ∉ a) :
    splitCh sep (a ++ sep :: b) = a :: splitCh sep b := by
  induction a with
  | nil =>
    simp only [List.nil_append, splitCh]
    cases hb : splitCh sep b with
    | nil => exact absurd hb (splitCh_ne_nil sep b)
    | cons h t => simp
  | cons c cs ih =>
    have hcs : sep ∉ cs := fun hm => h (List.mem_cons_of_mem _ hm)
    have hc : c ≠ sep := fun he => h (he ▸ List.mem_cons_self c cs)
    show splitCh sep (c :: (cs ++ sep :: b)) = (c :: cs) :: splitCh sep b
    rw [splitCh, ih hcs]
    simp [hc]

theorem splitCh_parts {sep : Char} {s : Str} :
    ∀ p ∈ splitCh sep s, (∀ c ∈ p, c ∈ s) ∧ sep ∉ p := by
  induction s with
  | nil =>
    intro p hp
    simp only [splitCh, List.mem_singleton] at hp
    subst hp
    exact ⟨fun c hc => absurd hc (List.not_mem_nil c), List.not_mem_nil sep⟩
  | cons d ds ih =>
    intro p hp
    cases hds : splitCh sep ds with
    | nil => exact absurd hds (splitCh_ne_nil sep ds)
    | cons h t =>
      have hht : ∀ q ∈ (h :: t : List Str), (∀ c ∈ q, c ∈ ds) ∧ sep ∉ q := by
        intro q hq
        exact ih q (by rw [hds]; exact hq)
      simp only [splitCh, hds] at hp
      by_cases hd : d = sep
      · rw [if_pos hd] at hp
        rcases List.mem_cons.mp hp with rfl | hp2
        · exact ⟨fun c hc => absurd hc (List.not_mem_nil c), List.not_mem_nil sep⟩
        · obtain ⟨hmem, hns⟩ := hht p hp2
          exact ⟨fun c hc => List.mem_cons_of_mem _ (hmem c hc), hns⟩
      · rw [if_neg hd] at hp
        rcases List.mem_cons.mp hp with rfl | hp2
        · obtain ⟨hmem, hns⟩ := hht h (List.mem_cons_self h t)
          refine ⟨?_, ?_⟩
          · intro c hc
            rcases List.mem_cons.mp hc with rfl | hc2
            · exact List.mem_cons_self c ds
            · exact List.mem_cons_of_mem _ (hmem c hc2)
          · intro hmem2
            rcases List.mem_cons.mp hmem2 with he | hmem3
            · exact hd he.symm
            · exact hns hmem3
        · obtain ⟨hmem, hns⟩ := hht p (List.mem_cons_of_mem _ hp2)
          exact ⟨fun c hc => List.mem_cons_of_mem _ (hmem c hc), hns⟩

theorem splitFirst_eq_none {sep : Char} {s : Str} (h : sep ∉ s) :
    splitFirst sep s = none := by
  induction s with
  | nil => rfl
  | cons c cs ih =>
    have hcs : sep ∉ cs := fun hm => h (List.mem_cons_of_mem _ hm)
    have hc : c ≠ sep := fun he => h (he ▸ List.mem_cons_self c cs)
    simp [splitFirst, hc, ih hcs]

theorem splitFirst_append_sep {sep : Char} {a : Str} (b : Str) (h : sep ∉ a) :
    splitFirst sep (a ++ sep :: b) = some (a, b) := by
  induction a with
  | nil => simp [splitFirst]
  | cons c cs ih =>
    have hcs : sep ∉ cs := fun hm => h (List.mem_cons_of_mem _ hm)
    have hc : c ≠ sep := fun he => h (he ▸ List.mem_cons_self c cs)
    simp [splitFirst, hc, ih hcs]

theorem splitFirst_eq_some {sep : Char} {s a b : Str}
    (h : splitFirst sep s = some (a, b)) : sep ∉ a ∧ s = a ++ sep :: b := by
  induction s generalizing a b with
  | nil => exact absurd h (by simp [splitFirst])
  | cons c cs ih =>
    simp only [splitFirst] at h
    by_cases hc : c = sep
    · rw [if_pos hc] at h
      obtain ⟨rfl, rfl⟩ : [] = a ∧ cs = b := by
        constructor <;> [exact congrArg Prod.fst (Option.some.inj h);
          exact congrArg Prod.snd (Option.some.inj h)]
      exact ⟨List.not_mem_nil sep, by simp [hc]⟩
    · rw [if_neg hc] at h
      cases hcs : splitFirst sep cs with
      | none => rw [hcs] at h; exact absurd h (by simp)
      | some p =>
        rw [hcs] at h
        obtain ⟨a0, b0⟩ := p
        have hinj := Option.some.inj h
        have ha : c :: a0 = a := congrArg Prod.fst hinj
        have hb : b0 = b := congrArg Prod.snd hinj
        obtain ⟨hnm, heq⟩ := ih hcs
        subst ha
        subst hb
        refine ⟨?_, by simp [heq]⟩
        intro hmem
        rcases List.mem_cons.mp hmem with he | hmem2
        · exact hc he.symm
        · exact hnm hmem2

/-! ### Behaviour of `mask_ip_address` -/

theorem mask_of_four {o0 o1 o2 o3 : Str}
    (hd : '.' ∉ o0 ∧ '.' ∉ o1 ∧ '.' ∉ o2 ∧ '.' ∉ o3)
    (hs : '/' ∉ o0 ∧ '/' ∉ o1 ∧ '/' ∉ o2 ∧ '/' ∉ o3) :
    mask_ip_address (o0 ++ ('.' :: (o1 ++ ('.' :: (o2 ++ ('.' :: o3)))))) =
      o0 ++ ((".xx.xx.").toList ++ o3) := by
  have hslash : '/' ∉ (o0 ++ ('.' :: (o1 ++ ('.' :: (o2 ++ ('.' :: o3)))))) := by
    intro hm
    rcases List.mem_append.mp hm with h | hm1
    · exact hs.1 h
    rcases List.mem_cons.mp hm1 with he | hm2
    · exact absurd he (by decide)
    rcases List.mem_append.mp hm2 with h | hm3
    · exact hs.2.1 h
    rcases List.mem_cons.mp hm3 with he | hm4
    · exact absurd he (by decide)
    rcases List.mem_append.mp hm4 with h | hm5
    · exact hs.2.2.1 h
    rcases List.mem_cons.mp hm5 with he | hm6
    · exact absurd he (by decide)
    exact hs.2.2.2 hm6
  have h1 : splitFirst '/' (o0 ++ ('.' :: (o1 ++ ('.' :: (o2 ++ ('.' :: o3)))))) = none :=
    splitFirst_eq_none hslash
  have h2 : splitCh '.' (o0 ++ ('.' :: (o1 ++ ('.' :: (o2 ++ ('.' :: o3)))))) =
      [o0, o1, o2, o3] := by
    rw [splitCh_append_sep _ hd.1, splitCh_append_sep _ hd.2.1,
      splitCh_append_sep _ hd.2.2.1, splitCh_of_not_mem hd.2.2.2]
  unfold mask_ip_address
  simp [h1, h2]

theorem mask_of_four_cidr {o0 o1 o2 o3 : Str} (cidr : Str)
    (hd : '.' ∉ o0 ∧ '.' ∉ o1 ∧ '.' ∉ o2 ∧ '.' ∉ o3)
    (hs : '/' ∉ o0 ∧ '/' ∉ o1 ∧ '/' ∉ o2 ∧ '/' ∉ o3) :
    mask_ip_address ((o0 ++ ('.' :: (o1 ++ ('.' :: (o2 ++ ('.' :: o3)))))) ++ '/' :: cidr) =
      o0 ++ ((".xx.xx.").toList ++ (o3 ++ '/' :: cidr)) := by
  have hslash : '/' ∉ (o0 ++ ('.' :: (o1 ++ ('.' :: (o2 ++ ('.' :: o3)))))) := by
    intro hm
    rcases List.mem_append.mp hm with h | hm1
    · exact hs.1 h
    rcases List.mem_cons.mp hm1 with he | hm2
    · exact absurd he (by decide)
    rcases List.mem_append.mp hm2 with h | hm3
    · exact hs.2.1 h
    rcases List.mem_cons.mp hm3 with he | hm4
    · exact absurd he (by decide)
    rcases List.mem_append.mp hm4 with h | hm5
    · exact hs.2.2.1 h
    rcases List.mem_cons.mp hm5 with he | hm6
    · exact absurd he (by decide)
    exact hs.2.2.2 hm6
  have h1 : splitFirst '/'
      ((o0 ++ ('.' :: (o1 ++ ('.' :: (o2 ++ ('.' :: o3)))))) ++ '/' :: cidr) =
      some ((o0 ++ ('.' :: (o1 ++ ('.' :: (o2 ++ ('.' :: o3)))))), cidr) :=
    splitFirst_append_sep _ hslash
  have h2 : splitCh '.' (o0 ++ ('.' :: (o1 ++ ('.' :: (o2 ++ ('.' :: o3)))))) =
      [o0, o1, o2, o3] := by
    rw [splitCh_append_sep _ hd.1, splitCh_append_sep _ hd.2.1,
      splitCh_append_sep _ hd.2.2.1, splitCh_of_not_mem hd.2.2.2]
  unfold mask_ip_address
  rw [h1]
  simp only [h2]
  simp

theorem mask_default {s : Str}
    (h : match splitFirst '/' s with
         | some (ip, _) => (splitCh '.' ip).length ≠ 4
         | none => (splitCh '.' s).length ≠ 4) :
    mask_ip_address s = s := by
  unfold mask_ip_address
  cases h1 : splitFirst '/' s with
  | none =>
    simp only [h1] at h ⊢
    rcases h2 : splitCh '.' s with _ | ⟨a, _ | ⟨b, _ | ⟨c, _ | ⟨d, _ | ⟨e, rest⟩⟩⟩⟩⟩ <;>
      simp only [h2] at h ⊢ <;> first | rfl | simp at h
  | some p =>
    obtain ⟨ip, cidr⟩ := p
    simp only [h1] at h ⊢
    rcases h2 : splitCh '.' ip with _ | ⟨a, _ | ⟨b, _ | ⟨c, _ | ⟨d, _ | ⟨e, rest⟩⟩⟩⟩⟩ <;>
      simp only [h2] at h ⊢ <;> first | rfl | simp at h

theorem splitFirst_none_not_mem {sep : Char} {s : Str}
    (h : splitFirst sep s = none) : sep ∉ s := by
  induction s with
  | nil => exact List.not_mem_nil sep
  | cons c cs ih =>
    simp only [splitFirst] at h
    by_cases hc : c = sep
    · rw [if_pos hc] at h
      exact absurd h (by simp)
    · rw [if_neg hc] at h
      intro hm
      rcases List.mem_cons.mp hm with he | hm2
      · exact hc he.symm
      · cases hcs : splitFirst sep cs with
        | none => exact ih hcs hm2
        | some p => rw [hcs] at h; exact absurd h (by simp)

theorem mask_fixed_nocidr {o0 o3 : Str}
    (hd0 : '.' ∉ o0) (hd3 : '.' ∉ o3) (hs0 : '/' ∉ o0) (hs3 : '/' ∉ o3) :
    mask_ip_address (o0 ++ ((".xx.xx.").toList ++ o3)) =
      o0 ++ ((".xx.xx.").toList ++ o3) := by
  have h := @mask_of_four o0 ['x', 'x'] ['x', 'x'] o3
    ⟨hd0, by decide, by decide, hd3⟩ ⟨hs0, by decide, by decide, hs3⟩
  simpa using h

theorem mask_fixed_cidr {o0 o3 : Str} (cidr : Str)
    (hd0 : '.' ∉ o0) (hd3 : '.' ∉ o3) (hs0 : '/' ∉ o0) (hs3 : '/' ∉ o3) :
    mask_ip_address (o0 ++ ((".xx.xx.").toList ++ (o3 ++ '/' :: cidr))) =
      o0 ++ ((".xx.xx.").toList ++ (o3 ++ '/' :: cidr)) := by
  have h := @mask_of_four_cidr o0 ['x', 'x'] ['x', 'x'] o3 cidr
    ⟨hd0, by decide, by decide, hd3⟩ ⟨hs0, by decide, by decide, hs3⟩
  simpa using h

/-- C6: the two documented examples of `mask_ip_address`, the general
masking behaviour on four-octet inputs (with or without a CIDR suffix),
and the pass-through behaviour on every other input. -/
theorem mask_ip_address_spec_C6 :
    mask_ip_address (("202.58.132.56").toList) = ("202.xx.xx.56").toList ∧
    mask_ip_address (("202.58.132.56/24").toList) = ("202.xx.xx.56/24").toList ∧
    (∀ o0 o1 o2 o3 : Str,
      ('.' ∉ o0 ∧ '.' ∉ o1 ∧ '.' ∉ o2 ∧ '.' ∉ o3) →
      ('/' ∉ o0 ∧ '/' ∉ o1 ∧ '/' ∉ o2 ∧ '/' ∉ o3) →
      mask_ip_address (o0 ++ ('.' :: (o1 ++ ('.' :: (o2 ++ ('.' :: o3)))))) =
        o0 ++ ((".xx.xx.").toList ++ o3)) ∧
    (∀ o0 o1 o2 o3 cidr : Str,
      ('.' ∉ o0 ∧ '.' ∉ o1 ∧ '.' ∉ o2 ∧ '.' ∉ o3) →
      ('/' ∉ o0 ∧ '/' ∉ o1 ∧ '/' ∉ o2 ∧ '/' ∉ o3) →
      mask_ip_address ((o0 ++ ('.' :: (o1 ++ ('.' :: (o2 ++ ('.' :: o3)))))) ++ '/' :: cidr) =
        o0 ++ ((".xx.xx.").toList ++ (o3 ++ '/' :: cidr))) ∧
    (∀ s : Str,
      (match splitFirst '/' s with
       | some (ip, _) => (splitCh '.' ip).length ≠ 4
       | none => (splitCh '.' s).length ≠ 4) →
      mask_ip_address s = s) :=
  ⟨by decide, by decide,
   fun _ _ _ _ hd hs => mask_of_four hd hs,
   fun _ _ _ _ cidr hd hs => mask_of_four_cidr cidr hd hs,
   fun _ h => mask_default h⟩

/-- Witness for C6: the general four-octet conjunct instantiated at a
concrete input, with the side conditions discharged by `decide`. -/
theorem mask_ip_address_spec_C6_witness :
    mask_ip_address ((("10").toList) ++ ('.' :: ((("1").toList) ++
        ('.' :: ((("2").toList) ++ ('.' :: (("3").toList))))))) =
      (("10").toList) ++ (((".xx.xx.").toList) ++ (("3").toList)) :=
  mask_ip_address_spec_C6.2.2.1 _ _ _ _ (by decide) (by decide)

/-- C10: `mask_ip_address` is idempotent — masking an already masked
string (including CIDR forms) leaves it unchanged. -/
theorem mask_ip_address_idem_C10 (s : Str) :
    mask_ip_address (mask_ip_address s) = mask_ip_address s := by
  cases h1 : splitFirst '/' s with
  | none =>
    have hns : '/' ∉ s := splitFirst_none_not_mem h1
    rcases h2 : splitCh '.' s with _ | ⟨a, _ | ⟨b, _ | ⟨c, _ | ⟨d, _ | ⟨e, rest⟩⟩⟩⟩⟩
    case cons.cons.cons.cons.nil =>
      have hpa := splitCh_parts a (by rw [h2]; simp)
      have hpd := splitCh_parts d (by rw [h2]; simp)
      have hm : mask_ip_address s = a ++ ((".xx.xx.").toList ++ d) := by
        unfold mask_ip_address
        rw [h1]
        simp [h2]
      rw [hm]
      exact mask_fixed_nocidr hpa.2 hpd.2
        (fun hc => hns (hpa.1 _ hc)) (fun hc => hns (hpd.1 _ hc))
    all_goals
      have hm : mask_ip_address s = s := by
        unfold mask_ip_address
        rw [h1]
        simp [h2]
      rw [hm, hm]
  | some p =>
    obtain ⟨ip, cidr⟩ := p
    obtain ⟨hnm, hse⟩ := splitFirst_eq_some h1
    rcases h2 : splitCh '.' ip with _ | ⟨a, _ | ⟨b, _ | ⟨c, _ | ⟨d, _ | ⟨e, rest⟩⟩⟩⟩⟩
    case cons.cons.cons.cons.nil =>
      have hpa := splitCh_parts a (by rw [h2]; simp)
      have hpd := splitCh_parts d (by rw [h2]; simp)
      have hm : mask_ip_address s = a ++ ((".xx.xx.").toList ++ (d ++ '/' :: cidr)) := by
        unfold mask_ip_address
        rw [h1]
        simp [h2]
      rw [hm]
      exact mask_fixed_cidr cidr hpa.2 hpd.2
        (fun hc => hnm (hpa.1 _ hc)) (fun hc => hnm (hpd.1 _ hc))
    all_goals
      have hm : mask_ip_address s = s := by
        unfold mask_ip_address
        rw [h1]
        simp [h2]
      rw [hm, hm]
/-! ### Claims about the verifier pipeline -/

/-- C2: the verification loop of `main` produces exactly one
(status, path) result per record, in input order; a scanner error for a
record becomes a Manual Check Required result for that record and the
loop continues, so the batch is never aborted. -/
theorem verifyAll_spec_C2
    (impl : ScannerId → Vuln → Except ScanErr (Status × Str))
    (vulns : List Vuln) :
    verifyAll impl vulns = vulns.map (fun vuln =>
      match impl (selectScanner vuln.category) vuln with
      | Except.ok result => result
      | Except.error _ => (Status.manualCheckRequired, manualFallbackPath vuln)) ∧
    (verifyAll impl vulns).length = vulns.length := by
  constructor
  · induction vulns with
    | nil => rfl
    | cons vuln rest ih => simp [verifyAll, ih]
  · induction vulns with
    | nil => rfl
    | cons vuln rest ih => simp [verifyAll, ih]

/-- C3: the row loop of `parse_nessus_csv` drops exactly the rows whose
mapped ip, port, or vulnerability-name field is missing or empty, and
yields exactly one record per remaining row, in order. -/
theorem parse_nessus_csv_rows_spec_C3 (fm : FieldMapping)
    (mappings : Mappings) (rows : List Row) :
    parse_nessus_csv_rows fm mappings rows =
      (rows.filter (fun row => rowComplete fm row)).map (mkVuln fm mappings) := by
  induction rows with
  | nil => rfl
  | cons row rest ih =>
    by_cases h : rowComplete fm row <;>
      simp [parse_nessus_csv_rows, List.filter_cons, h, ih]

/-- C9: categorization reads only the service, vulnerability-name and
plugin-id fields, so any two records agreeing on that triple receive the
same category under the same rule mapping. -/
theorem categorize_deterministic_C9 (mappings : Mappings) (v1 v2 : PreVuln)
    (hs : v1.service = v2.service)
    (hv : v1.vulnerability = v2.vulnerability)
    (hp : v1.plugin_id = v2.plugin_id) :
    categorize_vulnerability v1 mappings = categorize_vulnerability v2 mappings := by
  unfold categorize_vulnerability
  rw [hs, hv, hp]

/-- Witness for C9: two records with the same triple but different hosts
get the same category. -/
theorem categorize_deterministic_C9_witness :
    categorize_vulnerability apacheExamplePre specMappings =
      categorize_vulnerability
        { apacheExamplePre with ip := ("192.168.1.1").toList } specMappings :=
  categorize_deterministic_C9 specMappings _ _ rfl rfl rfl

/-- C5: the dispatch step of `main` selects the scanner bound to the
record's category in the `scanners` dictionary, and any category without
an entry is routed to the General scanner; the lookup is total. -/
theorem selectScanner_spec_C5 :
    (∀ p ∈ scanners, selectScanner p.1 = p.2) ∧
    (∀ category : Str, (∀ s : ScannerId, (category, s) ∉ scanners) →
      selectScanner category = ScannerId.general) := by
  constructor
  · decide
  · intro category h
    unfold selectScanner
    cases hf : scanners.find? (fun p => p.1 = category) with
    | none => rfl
    | some p =>
      have hmem : p ∈ scanners := List.mem_of_find?_eq_some hf
      have hpred := List.find?_some hf
      have hfst : p.1 = category := of_decide_eq_true hpred
      exact absurd (show (category, p.2) ∈ scanners by
        rw [← hfst]; exact hmem) (h p.2)

/-- Witness for C5: a category present in the table and one absent from
it, both dispatched as the theorem states. -/
theorem selectScanner_spec_C5_witness :
    selectScanner (("SSL").toList) = ScannerId.ssl ∧
    selectScanner (("PostgreSQL").toList) = ScannerId.general :=
  ⟨selectScanner_spec_C5.1 ((("SSL").toList, ScannerId.ssl)) (by decide),
   selectScanner_spec_C5.2 (("PostgreSQL").toList)
     (fun s hs => absurd
       (show (("PostgreSQL").toList) ∈ scanners.map Prod.fst from
         List.mem_map_of_mem Prod.fst hs) (by decide))⟩

/-- C7: the effective `create_poc_folder` (the second definition in
`core/file_manager.py`, which shadows the first at module load) writes no
file at all into the evidence folder, so no metadata file exists to be
re-read; only the shadowed first definition would have written
`vulnerability_info.json` into the folder. -/
theorem create_poc_folder_no_metadata_C7 :
    (∀ (status category : Str) (vuln : Vuln),
      (create_poc_folder status category vuln).2 = []) ∧
    (∀ (jsonOfVuln : Vuln → Str) (status category : Str) (vuln : Vuln),
      ∃ content,
        (pathJoin (create_poc_folder_shadowed jsonOfVuln status category vuln).1
            (("vulnerability_info.json").toList), content) ∈
          (create_poc_folder_shadowed jsonOfVuln status category vuln).2) :=
  ⟨fun _ _ _ => rfl,
   fun jsonOfVuln _ _ vuln => ⟨jsonOfVuln vuln, List.mem_singleton.mpr rfl⟩⟩

/-- C1: whenever the external command invocation of
`ApacheVulnScanner.verify` fails with a non-zero exit or times out, the
raised `ScannerError` is caught inside `verify`, a `manual_steps.txt`
remediation note is written into the evidence folder, and the call
returns normally with status Manual Check Required — never Verified or
False Positive, and never an escaping exception. -/
theorem apacheVerify_failure_manual_C1 (w : World) (vuln : Vuln)
    (h : w.cmdOutcome ≠ CmdOutcome.success) :
    ∃ result : VerifyResult,
      apacheVerify w vuln = Except.ok result ∧
      result.status = Status.manualCheckRequired ∧
      result.status ≠ Status.verified ∧
      result.status ≠ Status.falsePositive ∧
      ∃ note, (pathJoin result.pocPath (("manual_steps.txt").toList), note) ∈
        result.writes := by
  cases hc : w.cmdOutcome with
  | success => exact absurd hc h
  | calledProcessError output =>
    simp only [apacheVerify, _run_command, hc]
    refine ⟨_, rfl, rfl, ?_, ?_, ⟨_, List.mem_singleton.mpr rfl⟩⟩ <;> simp
  | timeoutExpired =>
    simp only [apacheVerify, _run_command, hc]
    refine ⟨_, rfl, rfl, ?_, ?_, ⟨_, List.mem_singleton.mpr rfl⟩⟩ <;> simp

/-- Witness for C1: a timed-out command on the example record yields an
ordinary Manual Check Required result. -/
theorem apacheVerify_failure_manual_C1_witness :
    ∃ result : VerifyResult,
      apacheVerify { cmdOutcome := CmdOutcome.timeoutExpired, xmlContent := [] }
          apacheExampleVuln = Except.ok result ∧
      result.status = Status.manualCheckRequired ∧
      result.status ≠ Status.verified ∧
      result.status ≠ Status.falsePositive ∧
      ∃ note, (pathJoin result.pocPath (("manual_steps.txt").toList), note) ∈
        result.writes :=
  apacheVerify_failure_manual_C1
    { cmdOutcome := CmdOutcome.timeoutExpired, xmlContent := [] }
    apacheExampleVuln (by decide)

/-- Counterexample to C8 as stated: on the spec's own example record
(vulnerability name "Apache Default Welcome Page", plugin id "11219",
which is in `["11219", "73346"]`), a successful scan whose XML output
matches nothing makes `ApacheVulnScanner.verify` return
"False Positive", not "Verified" — membership of the plugin id in the
known-identifier list does not determine the returned status. -/
theorem apacheVerify_identifier_not_status_counterexample_C8 :
    apacheExampleVuln.plugin_id = ("11219").toList ∧
    apacheExampleVuln.vulnerability = ("Apache Default Welcome Page").toList ∧
    apacheVerify { cmdOutcome := CmdOutcome.success, xmlContent := [] }
        apacheExampleVuln =
      Except.ok
        { status := Status.falsePositive
          pocPath := OUTPUT_DIR ++
            (("/Verified/apache/Apache_Default_Welcome_Page_10.0.0.5_80").toList)
          writes := [] } := by
  refine ⟨rfl, rfl, ?_⟩
  rfl

/-- C8 as amended: the example row is assigned the Apache category; the
known-identifier list `["11219", "73346"]` determines only the status
directory under which the evidence folder is created (here `Verified`),
while the status returned by the Apache verifier is decided by the scan
output — Verified exactly when the lowercased XML output contains the
vulnerability name or the substring "vulnerable". -/
theorem apacheVerify_apache_example_amended_C8 :
    categorize_vulnerability apacheExamplePre specMappings = ("Apache").toList ∧
    apacheVerify
        { cmdOutcome := CmdOutcome.success, xmlContent := ("vulnerable").toList }
        apacheExampleVuln =
      Except.ok
        { status := Status.verified
          pocPath := OUTPUT_DIR ++
            (("/Verified/apache/Apache_Default_Welcome_Page_10.0.0.5_80").toList)
          writes := [] } ∧
    apacheVerify { cmdOutcome := CmdOutcome.success, xmlContent := [] }
        apacheExampleVuln =
      Except.ok
        { status := Status.falsePositive
          pocPath := OUTPUT_DIR ++
            (("/Verified/apache/Apache_Default_Welcome_Page_10.0.0.5_80").toList)
          writes := [] } := by
  refine ⟨?_, ?_, ?_⟩ <;> rfl

theorem categoryKeywordScan_eq_find (vuln : PreVuln)
    (l : List (Str × CategoryData)) :
    categoryKeywordScan (strLower vuln.service) (strLower vuln.vulnerability) l =
      Option.map Prod.fst (l.find? (keywordHit vuln)) := by
  induction l with
  | nil => rfl
  | cons p rest ih =>
    obtain ⟨category, data⟩ := p
    by_cases hg : category = ("General").toList
    · have hpred : keywordHit vuln (category, data) = false := by
        simp [keywordHit, hg]
      rw [List.find?_cons_of_neg _ (by simp [hpred])]
      simp only [categoryKeywordScan]
      rw [if_pos hg]
      exact ih
    · by_cases hk : data.keywords.any (fun keyword =>
        isSub keyword (strLower vuln.service) ||
        isSub keyword (strLower vuln.vulnerability)) = true
      · have hpred : keywordHit vuln (category, data) = true := by
          simp [keywordHit, hk]
          exact hg
        rw [List.find?_cons_of_pos _ hpred]
        simp only [categoryKeywordScan]
        rw [if_neg hg, if_pos hk]
        rfl
      · have hpred : keywordHit vuln (category, data) = false := by
          simp only [keywordHit]
          simp [hk]
        rw [List.find?_cons_of_neg _ (by simp [hpred])]
        simp only [categoryKeywordScan]
        rw [if_neg hg, if_neg hk]
        exact ih

theorem categoryVulnScan_eq_find (vuln : PreVuln)
    (l : List (Str × CategoryData)) :
    categoryVulnScan (strLower vuln.vulnerability) vuln.plugin_id l =
      Option.map Prod.fst (l.find? (vulnTableHit vuln)) := by
  induction l with
  | nil => rfl
  | cons p rest ih =>
    obtain ⟨category, data⟩ := p
    by_cases hg : category = ("General").toList
    · have hpred : vulnTableHit vuln (category, data) = false := by
        simp [vulnTableHit, hg]
      rw [List.find?_cons_of_neg _ (by simp [hpred])]
      simp only [categoryVulnScan]
      rw [if_pos hg]
      exact ih
    · cases hv : data.vulnerabilities with
      | none =>
        have hpred : vulnTableHit vuln (category, data) = false := by
          simp [vulnTableHit, hv]
        rw [List.find?_cons_of_neg _ (by simp [hpred])]
        simp only [categoryVulnScan]
        rw [if_neg hg]
        simp only [hv]
        exact ih
      | some vulnTable =>
        by_cases ht : vulnTable.any (fun mapped =>
            isSub (strLower mapped.1) (strLower vuln.vulnerability) ||
            mapped.2.any (fun pid => isSub pid vuln.plugin_id)) = true
        · have hpred : vulnTableHit vuln (category, data) = true := by
            simp [vulnTableHit, hv, ht]
            exact hg
          rw [List.find?_cons_of_pos _ hpred]
          simp only [categoryVulnScan]
          rw [if_neg hg]
          simp only [hv]
          rw [if_pos ht]
          rfl
        · have hpred : vulnTableHit vuln (category, data) = false := by
            simp only [vulnTableHit, hv]
            simp [ht]
          rw [List.find?_cons_of_neg _ (by simp [hpred])]
          simp only [categoryVulnScan]
          rw [if_neg hg]
          simp only [hv]
          rw [if_neg ht]
          exact ih

/-- C4: categorization lowercases the service and vulnerability-name
fields, returns the first non-General category (in mapping order) with a
keyword occurring in either field, otherwise the first non-General
category whose identifier table matches, otherwise the default
`General`; it is total, so the result is always `General` or the name of
a category of the mapping. -/
theorem categorize_vulnerability_spec_C4 (vuln : PreVuln) (mappings : Mappings) :
    (categorize_vulnerability vuln mappings =
      match mappings.categories.find? (keywordHit vuln) with
      | some p => p.1
      | none =>
        match mappings.categories.find? (vulnTableHit vuln) with
        | some p => p.1
        | none => ("General").toList) ∧
    (categorize_vulnerability vuln mappings = ("General").toList ∨
      ∃ data, (categorize_vulnerability vuln mappings, data) ∈
        mappings.categories) := by
  have hserv : (if vuln.service ≠ [] then strLower vuln.service else []) =
      strLower vuln.service := by
    cases vuln.service <;> simp [strLower]
  have hname : (if vuln.vulnerability ≠ [] then strLower vuln.vulnerability else []) =
      strLower vuln.vulnerability := by
    cases vuln.vulnerability <;> simp [strLower]
  have hmain : categorize_vulnerability vuln mappings =
      match mappings.categories.find? (keywordHit vuln) with
      | some p => p.1
      | none =>
        match mappings.categories.find? (vulnTableHit vuln) with
        | some p => p.1
        | none => ("General").toList := by
    simp only [categorize_vulnerability, hserv, hname,
      categoryKeywordScan_eq_find, categoryVulnScan_eq_find]
    cases hf1 : mappings.categories.find? (keywordHit vuln) with
    | some p => simp
    | none =>
      cases hf2 : mappings.categories.find? (vulnTableHit vuln) with
      | some p => simp
      | none => simp
  refine ⟨hmain, ?_⟩
  rw [hmain]
  cases hf1 : mappings.categories.find? (keywordHit vuln) with
  | some p =>
    right
    exact ⟨p.2, List.mem_of_find?_eq_some hf1⟩
  | none =>
    cases hf2 : mappings.categories.find? (vulnTableHit vuln) with
    | some p =>
      right
      exact ⟨p.2, List.mem_of_find?_eq_some hf2⟩
    | none =>
      left
      rfl
